import Mathlib

/-!
Verification development for a compressed-NFT minting client.

The repository has three source files:
- an RPC proxy route (POST forwards a JSON-RPC envelope, GET is a liveness probe),
- a mint proxy route (POST validates and forwards a mintCompressedNft call),
- a client hook useMintCNFT that selects between a user-signed mint against a
  configured Merkle tree and a server-signed mint through the mint proxy,
  with success and error notifications.

We embed the decision logic shallowly: JavaScript truthiness on optional strings
and booleans is modelled explicitly, network effects are modelled as an explicit
list of calls plus oracle functions standing for the upstream services, and the
HTTP responses are modelled structurally (status code plus structured body).
-/

/-- JavaScript truthiness of an optional string: undefined and the empty string
are falsy, every other string is truthy. Models checks such as bang-method and
double-bang on environment variables. -/
def optTruthy (o : Option String) : Bool :=
  match o with
  | some s => !s.isEmpty
  | none => false

/-- JavaScript truthiness of an optional boolean flag such as forceHelius. -/
def optBoolTruthy (o : Option Bool) : Bool :=
  o.getD false

/-- JavaScript or-default on an optional string: the default is used when the
field is undefined or the empty string. -/
def jsOrStr (o : Option String) (d : String) : String :=
  match o with
  | some s => if s.isEmpty then d else s
  | none => d

/-- A minimal JSON value type, used for payload fields that the code passes
through without inspecting them (params of the RPC proxy, attributes of the
mint proxy). -/
inductive JsonValue where
  | null : JsonValue
  | bool (b : Bool) : JsonValue
  | num (n : Int) : JsonValue
  | str (s : String) : JsonValue
  | arr (xs : List JsonValue) : JsonValue
  | obj (fields : List (String × JsonValue)) : JsonValue

/-- JavaScript truthiness of a JSON value: null, false, 0 and the empty string
are falsy; arrays and objects are always truthy. -/
def jsonTruthy : JsonValue → Bool
  | JsonValue.null => false
  | JsonValue.bool b => b
  | JsonValue.num n => n != 0
  | JsonValue.str s => !s.isEmpty
  | JsonValue.arr _ => true
  | JsonValue.obj _ => true

/-- Whether a list starts with the given pattern, character by character. -/
def listStartsWith : List Char → List Char → Bool
  | _, [] => true
  | [], _ :: _ => false
  | c :: cs, d :: ds => c = d && listStartsWith cs ds

/-- Whether the pattern occurs as a contiguous run inside the list. -/
def listOccurs : List Char → List Char → Bool
  | [], pat => pat.isEmpty
  | c :: rest, pat => listStartsWith (c :: rest) pat || listOccurs rest pat

/-- Model of the JavaScript String.includes check used by the error handler. -/
def strIncludes (s pat : String) : Bool :=
  listOccurs s.data pat.data

/-- The character for a base-36 digit: 0-9 then lowercase a-z, as produced by
the JavaScript Number.toString with radix 36. -/
def digitChar36 (d : Nat) : Char :=
  if d < 10 then Char.ofNat (48 + d) else Char.ofNat (87 + d)

/-- The base-36 digit characters of a natural number, most significant first;
empty for zero. -/
def base36Digits (n : Nat) : List Char :=
  if h : n = 0 then []
  else base36Digits (n / 36) ++ [digitChar36 (n % 36)]
termination_by n
decreasing_by
  exact Nat.div_lt_self (Nat.pos_of_ne_zero h) (by decide)

/-- JavaScript Number.toString with radix 36 on a natural number. -/
def toBase36 (n : Nat) : String :=
  if n = 0 then "0" else String.mk (base36Digits n)

/-- JavaScript String.padStart: left-pad with the filler character up to the
target length; a string already at least that long is returned unchanged. -/
def padStart (s : String) (len : Nat) (c : Char) : String :=
  String.mk (List.replicate (len - s.length) c) ++ s

/-- The sum of the character codes of a string, as computed by reducing over
charCodeAt. -/
def sumCharCodes (s : String) : Nat :=
  (s.data.map Char.toNat).sum

/-- The parameters of one mint request as accepted by the useMintCNFT hook:
name, symbol, optional description and image URL, and the optional
force-fallback flag forceHelius. -/
structure MintCNFTParams where
  name : String
  symbol : String
  description : Option String := none
  imageUrl : Option String := none
  forceHelius : Option Bool := none

/-- The metadata stub producer uploadMetadata from the hook: the sum of the
character codes of the name, rendered in base 36, left-padded with the
character x to 43 characters, embedded in a fixed Arweave URL template. -/
def uploadMetadata (p : MintCNFTParams) : String :=
  let hash := padStart (toBase36 (sumCharCodes p.name)) 43 'x'
  "https://arweave.net/" ++ hash

/-- A structured HTTP response body, standing for the JSON bodies the two
proxy routes produce via JSON.stringify. -/
inductive ApiBody where
  | errStr (msg : String) : ApiBody
  | errJson (e : JsonValue) : ApiBody
  | mintOk (signature : String) (assetId : String) : ApiBody
  | statusMsg (s : String) : ApiBody
  | raw (text : String) : ApiBody

/-- An HTTP response as produced by the proxy routes: a status code and a
structured body. -/
structure ApiResponse where
  status : Nat
  body : ApiBody

/-- The JSON body of a mint-proxy POST request, with every field optional as
in a parsed JSON object. -/
structure MintProxyBody where
  name : Option String := none
  symbol : Option String := none
  owner : Option String := none
  description : Option String := none
  imageUrl : Option String := none
  attributes : Option JsonValue := none

/-- The params object of the mintCompressedNft JSON-RPC call built by the
mint proxy. -/
structure MintRpcParams where
  name : String
  symbol : String
  owner : String
  description : String
  attributes : JsonValue
  imageUrl : String
  sellerFeeBasisPoints : Nat

/-- The JSON-RPC request the mint proxy sends upstream. -/
structure MintRpcRequest where
  jsonrpc : String
  id : String
  method : String
  params : MintRpcParams

/-- The upstream response as observed by the mint proxy: the HTTP ok flag and
status, the body text used in the non-ok branch, and the parsed JSON error
and result fields used otherwise. -/
structure MintUpstreamResp where
  ok : Bool
  status : Nat
  text : String
  error : JsonValue := JsonValue.null
  resultSignature : String := ""
  resultAssetId : String := ""

/-- JavaScript or-default on an optional JSON value, with JS truthiness. -/
def jsOrJson (o : Option JsonValue) (d : JsonValue) : JsonValue :=
  match o with
  | some v => if jsonTruthy v then v else d
  | none => d

/-- The mint proxy POST handler. Validates that name, symbol and owner are
truthy, builds the mintCompressedNft JSON-RPC request with defaults, sends it
to the upstream oracle, and maps the upstream response to 502 or 200. The
first component records the upstream request if one was sent. -/
def mintProxyPOST (b : MintProxyBody) (upstream : MintRpcRequest → MintUpstreamResp) :
    Option MintRpcRequest × ApiResponse :=
  if !(optTruthy b.name) || !(optTruthy b.symbol) || !(optTruthy b.owner) then
    (none, { status := 400, body := ApiBody.errStr "Missing required fields: name, symbol, owner" })
  else
    let name := b.name.getD ""
    let req : MintRpcRequest :=
      { jsonrpc := "2.0", id := "helius-mint", method := "mintCompressedNft",
        params :=
          { name := name, symbol := b.symbol.getD "", owner := b.owner.getD "",
            description := jsOrStr b.description ("A compressed NFT: " ++ name),
            attributes := jsOrJson b.attributes (JsonValue.arr []),
            imageUrl := jsOrStr b.imageUrl "https://arweave.net/placeholder-image",
            sellerFeeBasisPoints := 500 } }
    let u := upstream req
    (some req,
      if !u.ok then
        { status := 502,
          body := ApiBody.errStr ("Helius error: " ++ toString u.status ++ " - " ++ u.text) }
      else if jsonTruthy u.error then
        { status := 502, body := ApiBody.errJson u.error }
      else
        { status := 200, body := ApiBody.mintOk u.resultSignature u.resultAssetId })

/-- The mint proxy GET liveness probe. -/
def mintProxyGET : ApiResponse :=
  { status := 200, body := ApiBody.statusMsg "mint-cnft endpoint" }

/-- The JSON body of an RPC-proxy POST request. -/
structure RpcProxyBody where
  method : Option String := none
  params : Option JsonValue := none

/-- The JSON-RPC envelope the RPC proxy forwards upstream. -/
structure RpcEnvelope where
  jsonrpc : String
  id : String
  method : String
  params : Option JsonValue

/-- The upstream response as observed by the RPC proxy: status, body text and
the optional content-type header. -/
structure RpcUpstreamResp where
  status : Nat
  text : String
  contentType : Option String := none

/-- An RPC-proxy response: status, body, and the content-type header. -/
structure RpcResponse where
  status : Nat
  body : ApiBody
  contentType : String

/-- The RPC proxy POST handler. Returns 400 when method is falsy; otherwise
forwards the fixed JSON-RPC 2.0 envelope with id proxy and the original
method and params, and returns the upstream body text and status verbatim.
The first component records the forwarded envelope if one was sent. -/
def rpcProxyPOST (b : RpcProxyBody) (upstream : RpcEnvelope → RpcUpstreamResp) :
    Option RpcEnvelope × RpcResponse :=
  if !(optTruthy b.method) then
    (none,
      { status := 400, body := ApiBody.errStr "Missing method in request body",
        contentType := "application/json" })
  else
    let env : RpcEnvelope :=
      { jsonrpc := "2.0", id := "proxy", method := b.method.getD "", params := b.params }
    let u := upstream env
    (some env,
      { status := u.status, body := ApiBody.raw u.text,
        contentType := jsOrStr u.contentType "application/json" })

/-- The RPC proxy GET liveness probe. -/
def rpcProxyGET : ApiResponse :=
  { status := 200, body := ApiBody.statusMsg "helius proxy endpoint" }

/-- A browser-injected wallet extension object (window.solana), with its brand
flag, public key, and whether it offers a batch-signing function. -/
structure SolanaExt where
  isPhantom : Bool
  publicKey : String
  hasSignAll : Bool := true

/-- The environment the useMintCNFT hook reads: the build-time Merkle tree
address, the wallet-adapter state (public key and whether signTransaction is
defined), the injected extension, and the WalletUi account address. -/
structure MintEnv where
  merkleTreeAddress : Option String := none
  walletAdapterPublicKey : Option String := none
  walletAdapterCanSign : Bool := false
  windowSolana : Option SolanaExt := none
  accountAddress : Option String := none

/-- The body of the fetch the client sends to the mint proxy. -/
structure ServerMintReq where
  name : String
  symbol : String
  owner : String
  description : Option String
  imageUrl : Option String

/-- The mint-proxy response as observed by the client in mintWithHeliusAPI:
HTTP ok flag and status, body text for the error branch, and the parsed JSON
error or signature and assetId fields. -/
structure ServerMintResp where
  ok : Bool
  status : Nat
  text : String
  jsonError : Option JsonValue := none
  signature : String := ""
  assetId : String := ""

/-- A network call made during one mint attempt: a POST to the mint proxy, or
a send-and-confirm of a mint transaction to the chain. -/
inductive NetCall where
  | mintProxy (req : ServerMintReq) : NetCall
  | chainMint (tree : String) (uri : String) : NetCall

/-- The result of a successful mint attempt. -/
structure MintResult where
  signature : String
  assetId : String

/-- Lookup of an object field by key, first match wins. -/
def jsLookup (fields : List (String × JsonValue)) (k : String) : Option JsonValue :=
  match fields with
  | [] => none
  | (k2, v) :: rest => if k2 = k then some v else jsLookup rest k

/-- JavaScript String conversion of a JSON value, as applied when a non-string
value is thrown in an Error. -/
def jsToString : JsonValue → String
  | JsonValue.null => "null"
  | JsonValue.bool b => if b then "true" else "false"
  | JsonValue.num n => toString n
  | JsonValue.str s => s
  | JsonValue.arr _ => ""
  | JsonValue.obj _ => "[object Object]"

/-- The message the client throws on a JSON-level mint-proxy error: the error
field of the error object when truthy, else the error value itself when
truthy, else a fixed fallback. -/
def serverMintErrMsg (e : JsonValue) : String :=
  let viaMessage :=
    match e with
    | JsonValue.obj fields =>
      match jsLookup fields "message" with
      | some m => if jsonTruthy m then some m else none
      | none => none
    | _ => none
  match viaMessage with
  | some m => jsToString m
  | none => if jsonTruthy e then jsToString e else "Unknown server mint error"

/-- The errors one mint attempt can end in, one constructor per throw site of
the hook. -/
inductive MintError where
  | treeNotConfigured : MintError
  | signingUnsupported : MintError
  | walletNotConnectedTree : MintError
  | walletNotConnected : MintError
  | serverHttp (status : Nat) (text : String) : MintError
  | serverRpc (e : JsonValue) : MintError

/-- The message string of each error, as carried by the thrown Error object. -/
def MintError.message : MintError → String
  | MintError.treeNotConfigured =>
      "NEXT_PUBLIC_MERKLE_TREE_ADDRESS not configured. See TREE_SETUP_GUIDE.md"
  | MintError.signingUnsupported => "Wallet does not support transaction signing"
  | MintError.walletNotConnectedTree =>
      "Wallet not connected. To mint with the configured Merkle tree you must connect a signing wallet. Alternatively, unset NEXT_PUBLIC_MERKLE_TREE_ADDRESS to use the Helius API fallback."
  | MintError.walletNotConnected => "Wallet not connected"
  | MintError.serverHttp status text =>
      "Server mint error: " ++ toString status ++ " - " ++ text
  | MintError.serverRpc e => serverMintErrMsg e

/-- The user-signed strategy mintWithExistingTree: throws when the tree
address environment variable is falsy, otherwise uploads the stub metadata
and submits one mint transaction to the chain, returning the confirmed
signature and the pending-indexing sentinel asset id. The chain signature is
an oracle argument. -/
def mintWithExistingTree (env : MintEnv) (chainSig : String) (p : MintCNFTParams) :
    List NetCall × Except MintError MintResult :=
  if optTruthy env.merkleTreeAddress then
    let tree := env.merkleTreeAddress.getD ""
    let uri := uploadMetadata p
    ([NetCall.chainMint tree uri],
      Except.ok { signature := chainSig, assetId := "pending-indexing" })
  else
    ([], Except.error MintError.treeNotConfigured)

/-- The server-signed strategy mintWithHeliusAPI: one POST to the mint proxy
with the given owner address, error on non-ok HTTP or a truthy JSON error
field, else the signature and assetId from the response. -/
def mintWithHeliusAPI (server : ServerMintReq → ServerMintResp) (p : MintCNFTParams)
    (walletAddress : String) : List NetCall × Except MintError MintResult :=
  let req : ServerMintReq :=
    { name := p.name, symbol := p.symbol, owner := walletAddress,
      description := p.description, imageUrl := p.imageUrl }
  let resp := server req
  ([NetCall.mintProxy req],
    if !resp.ok then
      Except.error (MintError.serverHttp resp.status resp.text)
    else
      match resp.jsonError with
      | some e =>
        if jsonTruthy e then Except.error (MintError.serverRpc e)
        else Except.ok { signature := resp.signature, assetId := resp.assetId }
      | none => Except.ok { signature := resp.signature, assetId := resp.assetId })

/-- The two mint strategies. -/
inductive Strategy where
  | userSigned : Strategy
  | serverSigned : Strategy
deriving DecidableEq

/-- The boolean useExistingTree computed once at the top of the mutation: the
tree address is configured and the caller did not force the fallback. -/
def useExistingTree (env : MintEnv) (p : MintCNFTParams) : Bool :=
  optTruthy env.merkleTreeAddress && !(optBoolTruthy p.forceHelius)

/-- The strategy the orchestrator selects for a request, as a function of the
environment and the request. -/
def strategyOf (env : MintEnv) (p : MintCNFTParams) : Strategy :=
  if useExistingTree env p then Strategy.userSigned else Strategy.serverSigned

/-- The mutation function of the useMintCNFT hook: selects the strategy once,
resolves the effective adapter on the user-signed path (connected adapter,
else synthesized extension wrapper, else the silent server fallback when an
account address is known, else failure), and runs the selected strategy. -/
def mintMutationFn (env : MintEnv) (server : ServerMintReq → ServerMintResp)
    (chainSig : String) (p : MintCNFTParams) : List NetCall × Except MintError MintResult :=
  if useExistingTree env p then
    match env.walletAdapterPublicKey with
    | some _ =>
      if env.walletAdapterCanSign then mintWithExistingTree env chainSig p
      else ([], Except.error MintError.signingUnsupported)
    | none =>
      match env.windowSolana with
      | some sol =>
        if sol.isPhantom then
          mintWithExistingTree env chainSig p
        else if optTruthy env.accountAddress then
          mintWithHeliusAPI server p (env.accountAddress.getD "")
        else
          ([], Except.error MintError.walletNotConnectedTree)
      | none =>
        if optTruthy env.accountAddress then
          mintWithHeliusAPI server p (env.accountAddress.getD "")
        else
          ([], Except.error MintError.walletNotConnectedTree)
  else
    if optTruthy env.accountAddress then
      mintWithHeliusAPI server p (env.accountAddress.getD "")
    else
      ([], Except.error MintError.walletNotConnected)

/-- A toast notification: title, description and display duration. -/
structure Toast where
  title : String
  description : String
  duration : Nat

/-- The onSuccess toast of the hook: branches on the captured configuredTree
flag, not on the strategy that actually ran. -/
def successToast (configuredTree : Bool) (data : MintResult) : Toast :=
  if configuredTree then
    { title := "🎉 cNFT Minted Successfully!",
      description := "You signed and paid for this transaction. Note: Using mock metadata URI for testing.",
      duration := 6000 }
  else
    { title := "Compressed NFT Minted!",
      description := "Asset ID: " ++ data.assetId.take 8 ++ "...",
      duration := 5000 }

/-- The onError toast of the hook: the raw error message, rewritten to the
tree-setup guidance when it mentions the tree environment variable. -/
def errorToast (e : MintError) : Toast :=
  let raw := e.message
  let msg :=
    if strIncludes raw "NEXT_PUBLIC_MERKLE_TREE_ADDRESS" then
      "Merkle tree not configured. Check TREE_SETUP_GUIDE.md"
    else raw
  { title := "Failed to Mint cNFT", description := msg, duration := 8000 }

/-- The user-visible notification emitted after one mint attempt. -/
inductive MintNotification where
  | success (t : Toast) : MintNotification
  | failure (t : Toast) : MintNotification

/-- Everything observable from one run of the mutation: the network calls
made, the result, the notification, and the scheduled cache-invalidation
delays in milliseconds. -/
structure MutationOutcome where
  calls : List NetCall
  result : Except MintError MintResult
  notification : MintNotification
  invalidationDelays : List Nat

/-- One full run of the useMintCNFT mutation: the mutation function followed
by the onSuccess or onError handler, with configuredTree captured from the
same environment. -/
def useMintCNFT (env : MintEnv) (server : ServerMintReq → ServerMintResp)
    (chainSig : String) (p : MintCNFTParams) : MutationOutcome :=
  let configuredTree := optTruthy env.merkleTreeAddress
  let r := mintMutationFn env server chainSig p
  match r.2 with
  | Except.ok d =>
    { calls := r.1, result := Except.ok d,
      notification := MintNotification.success (successToast configuredTree d),
      invalidationDelays := [3000, 10000] }
  | Except.error e =>
    { calls := r.1, result := Except.error e,
      notification := MintNotification.failure (errorToast e),
      invalidationDelays := [] }

/-- Whether a mint attempt ended in the tree-not-configured error thrown by
the guard at the top of mintWithExistingTree. -/
def isTreeNotConfiguredErr : Except MintError MintResult → Bool
  | Except.error MintError.treeNotConfigured => true
  | _ => false

/-- A sample mint-proxy oracle answering 200 with a fixed signature and asset
id, used to instantiate theorems at concrete inputs. -/
def sampleServerOk : ServerMintReq → ServerMintResp :=
  fun _ => { ok := true, status := 200, text := "", signature := "sig1", assetId := "id1" }

/-- A sample upstream oracle for the mint proxy answering a non-success HTTP
status. -/
def sampleUpstreamDown : MintRpcRequest → MintUpstreamResp :=
  fun _ => { ok := false, status := 500, text := "boom" }

/-- A sample upstream oracle for the mint proxy answering 200 with an
RPC-level error field. -/
def sampleUpstreamRpcErr : MintRpcRequest → MintUpstreamResp :=
  fun _ => { ok := true, status := 200, text := "", error := JsonValue.str "rpc failed" }

/-- A sample upstream oracle for the RPC proxy. -/
def sampleRpcUpstream : RpcEnvelope → RpcUpstreamResp :=
  fun _ => { status := 207, text := "resultbody", contentType := some "text/plain" }

/-- The server-signed strategy never produces the tree-not-configured error:
its two failure modes are the HTTP and the RPC-level upstream errors. -/
theorem mintWithHeliusAPI_not_treeErr (server : ServerMintReq → ServerMintResp)
    (p : MintCNFTParams) (a : String) :
    isTreeNotConfiguredErr (mintWithHeliusAPI server p a).2 = false := by
  unfold mintWithHeliusAPI
  dsimp only
  split
  · rfl
  · split
    · split <;> rfl
    · rfl

/-- With a truthy tree address, the user-signed strategy succeeds with the
chain signature and the pending-indexing sentinel. -/
theorem mintWithExistingTree_ok (env : MintEnv) (chainSig : String) (p : MintCNFTParams)
    (h : optTruthy env.merkleTreeAddress = true) :
    mintWithExistingTree env chainSig p =
      ([NetCall.chainMint (env.merkleTreeAddress.getD "") (uploadMetadata p)],
        Except.ok { signature := chainSig, assetId := "pending-indexing" }) := by
  unfold mintWithExistingTree
  simp [h]

/-- A mint-proxy body with a falsy required field is answered by the fixed
400 response and no upstream request. -/
theorem mintProxy_invalid_of_falsy (b : MintProxyBody)
    (upstream : MintRpcRequest → MintUpstreamResp)
    (h : optTruthy b.name = false ∨ optTruthy b.symbol = false ∨ optTruthy b.owner = false) :
    mintProxyPOST b upstream =
      (none,
        { status := 400,
          body := ApiBody.errStr "Missing required fields: name, symbol, owner" }) := by
  unfold mintProxyPOST
  rcases h with h | h | h <;> simp [h]

/-- An RPC-proxy body with a falsy method is answered by the fixed 400
response and no forwarded envelope. -/
theorem rpcProxy_invalid_of_falsy (rb : RpcProxyBody) (rup : RpcEnvelope → RpcUpstreamResp)
    (h : optTruthy rb.method = false) :
    rpcProxyPOST rb rup =
      (none,
        { status := 400, body := ApiBody.errStr "Missing method in request body",
          contentType := "application/json" }) := by
  unfold rpcProxyPOST
  simp [h]

/-- Claim C1: strategy selection is a pure function of the pair of the
tree-address-configured bit and the force-fallback flag; the orchestrator
selects the user-signed strategy if and only if a tree address is configured
and the caller did not set forceHelius, and the server-signed strategy in
every other combination. In the embedding the decision is the single boolean
useExistingTree computed once at the top of the mutation function. -/
theorem C1_strategy_selection (env : MintEnv) (p : MintCNFTParams) :
    (strategyOf env p = Strategy.userSigned ↔
      optTruthy env.merkleTreeAddress = true ∧ optBoolTruthy p.forceHelius = false) ∧
    (strategyOf env p ≠ Strategy.userSigned → strategyOf env p = Strategy.serverSigned) := by
  cases h1 : optTruthy env.merkleTreeAddress <;>
    cases h2 : optBoolTruthy p.forceHelius <;>
      simp [strategyOf, useExistingTree, h1, h2]

/-- Claim C5: a mint-proxy POST in which name, symbol or owner is missing is
answered with HTTP 400 and an error body, and no upstream request is made. -/
theorem C5_mint_proxy_missing_field (b : MintProxyBody)
    (upstream : MintRpcRequest → MintUpstreamResp)
    (h : b.name = none ∨ b.symbol = none ∨ b.owner = none) :
    (mintProxyPOST b upstream).1 = none ∧
    (mintProxyPOST b upstream).2.status = 400 ∧
    (mintProxyPOST b upstream).2.body =
      ApiBody.errStr "Missing required fields: name, symbol, owner" := by
  have hf : optTruthy b.name = false ∨ optTruthy b.symbol = false ∨
      optTruthy b.owner = false := by
    rcases h with h | h | h
    · exact Or.inl (by simp [h, optTruthy])
    · exact Or.inr (Or.inl (by simp [h, optTruthy]))
    · exact Or.inr (Or.inr (by simp [h, optTruthy]))
  rw [mintProxy_invalid_of_falsy b upstream hf]
  exact ⟨rfl, rfl, rfl⟩

/-- Closed instance of C5 at a body missing its owner field. -/
theorem C5_mint_proxy_missing_field_witness :
    (mintProxyPOST { name := some "Foo", symbol := some "FOO", owner := none }
        sampleUpstreamDown).1 = none ∧
    (mintProxyPOST { name := some "Foo", symbol := some "FOO", owner := none }
        sampleUpstreamDown).2.status = 400 ∧
    (mintProxyPOST { name := some "Foo", symbol := some "FOO", owner := none }
        sampleUpstreamDown).2.body =
      ApiBody.errStr "Missing required fields: name, symbol, owner" :=
  C5_mint_proxy_missing_field _ sampleUpstreamDown (Or.inr (Or.inr rfl))

/-- Claim C6: when a mint-proxy POST passes validation and reaches the
upstream provider, a non-success upstream HTTP status is answered with 502
and an error body carrying the upstream status and body text, and an
upstream 200 whose JSON has a truthy RPC-level error field is also answered
with 502. -/
theorem C6_mint_proxy_upstream_errors (b : MintProxyBody)
    (upstream : MintRpcRequest → MintUpstreamResp)
    (hn : optTruthy b.name = true) (hs : optTruthy b.symbol = true)
    (ho : optTruthy b.owner = true) :
    ∃ req, (mintProxyPOST b upstream).1 = some req ∧
      ((upstream req).ok = false →
        (mintProxyPOST b upstream).2.status = 502 ∧
        (mintProxyPOST b upstream).2.body =
          ApiBody.errStr
            ("Helius error: " ++ toString (upstream req).status ++ " - " ++ (upstream req).text)) ∧
      ((upstream req).ok = true → jsonTruthy (upstream req).error = true →
        (mintProxyPOST b upstream).2.status = 502 ∧
        (mintProxyPOST b upstream).2.body = ApiBody.errJson (upstream req).error) := by
  unfold mintProxyPOST
  simp only [hn, hs, ho, Bool.not_true, Bool.or_self, Bool.or_false, Bool.false_or,
    Bool.false_eq_true, if_false]
  refine ⟨_, rfl, fun hok => ?_, fun hok herr => ?_⟩
  · simp [hok]
  · simp [hok, herr]

/-- Closed instance of C6: a valid body against the sample failing upstream
oracle yields the 502 with the upstream status and text. -/
theorem C6_mint_proxy_upstream_errors_witness :
    ∃ req,
      (mintProxyPOST { name := some "Foo", symbol := some "FOO", owner := some "Owner1" }
          sampleUpstreamDown).1 = some req ∧
      ((sampleUpstreamDown req).ok = false →
        (mintProxyPOST { name := some "Foo", symbol := some "FOO", owner := some "Owner1" }
            sampleUpstreamDown).2.status = 502 ∧
        (mintProxyPOST { name := some "Foo", symbol := some "FOO", owner := some "Owner1" }
            sampleUpstreamDown).2.body =
          ApiBody.errStr
            ("Helius error: " ++ toString (sampleUpstreamDown req).status ++ " - "
              ++ (sampleUpstreamDown req).text)) ∧
      ((sampleUpstreamDown req).ok = true → jsonTruthy (sampleUpstreamDown req).error = true →
        (mintProxyPOST { name := some "Foo", symbol := some "FOO", owner := some "Owner1" }
            sampleUpstreamDown).2.status = 502 ∧
        (mintProxyPOST { name := some "Foo", symbol := some "FOO", owner := some "Owner1" }
            sampleUpstreamDown).2.body = ApiBody.errJson (sampleUpstreamDown req).error) :=
  C6_mint_proxy_upstream_errors _ sampleUpstreamDown (by decide) (by decide) (by decide)

/-- Claim C7: an RPC-proxy POST whose method is falsy is answered with 400
and nothing is forwarded; otherwise the forwarded request is exactly the
JSON-RPC 2.0 envelope with id proxy and the original method and params, and
the upstream body text and status are returned verbatim. -/
theorem C7_rpc_proxy_envelope (b : RpcProxyBody) (upstream : RpcEnvelope → RpcUpstreamResp) :
    (optTruthy b.method = false →
      (rpcProxyPOST b upstream).1 = none ∧ (rpcProxyPOST b upstream).2.status = 400) ∧
    (optTruthy b.method = true →
      ∃ env, (rpcProxyPOST b upstream).1 = some env ∧
        env.jsonrpc = "2.0" ∧ env.id = "proxy" ∧
        some env.method = b.method ∧ env.params = b.params ∧
        (rpcProxyPOST b upstream).2.body = ApiBody.raw (upstream env).text ∧
        (rpcProxyPOST b upstream).2.status = (upstream env).status) := by
  constructor
  · intro h
    unfold rpcProxyPOST
    simp [h]
  · intro h
    unfold rpcProxyPOST
    simp only [h, Bool.not_true, Bool.false_eq_true, if_false]
    refine ⟨_, rfl, rfl, rfl, ?_, rfl, rfl, rfl⟩
    cases hm : b.method with
    | none => rw [hm] at h; simp [optTruthy] at h
    | some m => simp [hm]

/-- Closed instance of C7 at a request with a truthy method against the
sample RPC upstream oracle. -/
theorem C7_rpc_proxy_envelope_witness :
    (optTruthy (none : Option String) = false →
      (rpcProxyPOST { method := none } sampleRpcUpstream).1 = none ∧
      (rpcProxyPOST { method := none } sampleRpcUpstream).2.status = 400) ∧
    (optTruthy (RpcProxyBody.method
        { method := some "getAsset", params := some (JsonValue.str "a1") }) = true →
      ∃ env,
        (rpcProxyPOST { method := some "getAsset", params := some (JsonValue.str "a1") }
            sampleRpcUpstream).1 = some env ∧
        env.jsonrpc = "2.0" ∧ env.id = "proxy" ∧
        some env.method = some "getAsset" ∧ env.params = some (JsonValue.str "a1") ∧
        (rpcProxyPOST { method := some "getAsset", params := some (JsonValue.str "a1") }
            sampleRpcUpstream).2.body = ApiBody.raw (sampleRpcUpstream env).text ∧
        (rpcProxyPOST { method := some "getAsset", params := some (JsonValue.str "a1") }
            sampleRpcUpstream).2.status = (sampleRpcUpstream env).status) :=
  ⟨fun h => (C7_rpc_proxy_envelope { method := none } sampleRpcUpstream).1 h,
   fun h =>
    (C7_rpc_proxy_envelope { method := some "getAsset", params := some (JsonValue.str "a1") }
      sampleRpcUpstream).2 h⟩

/-- Claim C10: at both proxy endpoints a required field that is present but
equal to the empty string behaves exactly like an absent field: the handler
answers 400 without contacting the upstream, and the response is identical
to the one for the body with that field removed. -/
theorem C10_empty_string_as_absent (b : MintProxyBody)
    (upstream : MintRpcRequest → MintUpstreamResp)
    (rb : RpcProxyBody) (rup : RpcEnvelope → RpcUpstreamResp) :
    (b.name = some "" ∨ b.symbol = some "" ∨ b.owner = some "" →
      (mintProxyPOST b upstream).1 = none ∧
      (mintProxyPOST b upstream).2.status = 400 ∧
      mintProxyPOST b upstream = mintProxyPOST { b with name := none } upstream) ∧
    (rb.method = some "" →
      (rpcProxyPOST rb rup).1 = none ∧
      (rpcProxyPOST rb rup).2.status = 400 ∧
      rpcProxyPOST rb rup = rpcProxyPOST { rb with method := none } rup) := by
  constructor
  · intro h
    have hf : optTruthy b.name = false ∨ optTruthy b.symbol = false ∨
        optTruthy b.owner = false := by
      rcases h with h | h | h
      · exact Or.inl (by rw [h]; decide)
      · exact Or.inr (Or.inl (by rw [h]; decide))
      · exact Or.inr (Or.inr (by rw [h]; decide))
    have h1 := mintProxy_invalid_of_falsy b upstream hf
    have h2 := mintProxy_invalid_of_falsy { b with name := none } upstream
      (Or.inl (by simp [optTruthy]))
    rw [h1, h2]
    exact ⟨rfl, rfl, rfl⟩
  · intro h
    have h1 := rpcProxy_invalid_of_falsy rb rup (by rw [h]; decide)
    have h2 := rpcProxy_invalid_of_falsy { rb with method := none } rup (by simp [optTruthy])
    rw [h1, h2]
    exact ⟨rfl, rfl, rfl⟩

/-- Claim C9: the tree-not-configured error branch inside mintWithExistingTree
is unreachable from the orchestrator: every path of the mutation function
that calls mintWithExistingTree is guarded by the strategy-selection
condition, whose first conjunct is exactly the truthiness of the tree
address that the guard re-checks. -/
theorem C9_tree_guard_unreachable (env : MintEnv) (server : ServerMintReq → ServerMintResp)
    (chainSig : String) (p : MintCNFTParams) :
    isTreeNotConfiguredErr (mintMutationFn env server chainSig p).2 = false := by
  have hhel : ∀ a, isTreeNotConfiguredErr (mintWithHeliusAPI server p a).2 = false :=
    fun a => mintWithHeliusAPI_not_treeErr server p a
  by_cases h : useExistingTree env p = true
  · have htree : optTruthy env.merkleTreeAddress = true := by
      have h2 := h
      unfold useExistingTree at h2
      exact (Bool.and_eq_true _ _ |>.mp h2).1
    have hex : isTreeNotConfiguredErr (mintWithExistingTree env chainSig p).2 = false := by
      rw [mintWithExistingTree_ok env chainSig p htree]
      rfl
    unfold mintMutationFn
    rw [if_pos h]
    cases env.walletAdapterPublicKey with
    | some pk =>
      dsimp only
      by_cases hcs : env.walletAdapterCanSign = true
      · rw [if_pos hcs]
        exact hex
      · rw [if_neg hcs]
        rfl
    | none =>
      cases env.windowSolana with
      | some sol =>
        dsimp only
        by_cases hp : sol.isPhantom = true
        · rw [if_pos hp]
          exact hex
        · rw [if_neg hp]
          by_cases ha : optTruthy env.accountAddress = true
          · rw [if_pos ha]
            exact hhel _
          · rw [if_neg ha]
            rfl
      | none =>
        dsimp only
        by_cases ha : optTruthy env.accountAddress = true
        · rw [if_pos ha]
          exact hhel _
        · rw [if_neg ha]
          rfl
  · unfold mintMutationFn
    rw [if_neg h]
    by_cases ha : optTruthy env.accountAddress = true
    · rw [if_pos ha]
      exact hhel _
    · rw [if_neg ha]
      rfl

/-- Claim C3: when the user-signed strategy is selected but the adapter has
no public key and no Phantom extension is injected, yet the WalletUi account
address is known, the orchestrator silently re-routes to the server-signed
strategy with that address as the owner and returns its result. -/
theorem C3_silent_reroute (env : MintEnv) (server : ServerMintReq → ServerMintResp)
    (chainSig : String) (p : MintCNFTParams)
    (hsel : useExistingTree env p = true)
    (hpk : env.walletAdapterPublicKey = none)
    (hext : env.windowSolana = none ∨
      ∃ sol, env.windowSolana = some sol ∧ sol.isPhantom = false)
    (hacct : optTruthy env.accountAddress = true) :
    mintMutationFn env server chainSig p =
      mintWithHeliusAPI server p (env.accountAddress.getD "") ∧
    (mintMutationFn env server chainSig p).1 =
      [NetCall.mintProxy
        { name := p.name, symbol := p.symbol, owner := env.accountAddress.getD "",
          description := p.description, imageUrl := p.imageUrl }] := by
  have heq : mintMutationFn env server chainSig p =
      mintWithHeliusAPI server p (env.accountAddress.getD "") := by
    unfold mintMutationFn
    rw [if_pos hsel, hpk]
    rcases hext with hws | ⟨sol, hws, hph⟩
    · rw [hws]
      simp [hacct]
    · rw [hws]
      simp [hph, hacct]
  refine ⟨heq, ?_⟩
  rw [heq]
  unfold mintWithHeliusAPI
  rfl

/-- Closed instance of C3: a configured tree, no adapter, no extension, and a
known account address re-route to the mint proxy with that address. -/
theorem C3_silent_reroute_witness :
    mintMutationFn { merkleTreeAddress := some "Tree1", accountAddress := some "Owner1" }
        sampleServerOk "csig" { name := "Foo", symbol := "FOO" } =
      mintWithHeliusAPI sampleServerOk { name := "Foo", symbol := "FOO" }
        ((MintEnv.accountAddress
          { merkleTreeAddress := some "Tree1", accountAddress := some "Owner1" }).getD "") ∧
    (mintMutationFn { merkleTreeAddress := some "Tree1", accountAddress := some "Owner1" }
        sampleServerOk "csig" { name := "Foo", symbol := "FOO" }).1 =
      [NetCall.mintProxy
        { name := "Foo", symbol := "FOO", owner := "Owner1",
          description := none, imageUrl := none }] :=
  C3_silent_reroute _ sampleServerOk "csig" _ (by decide) rfl (Or.inl rfl) (by decide)

/-- Claim C4: with a configured tree, no forced fallback, no adapter public
key, no injected Phantom extension and no account address, the mint attempt
fails with the wallet-not-connected error of the tree path, an error
notification is shown, and no network call to the proxy or the chain is
made. -/
theorem C4_no_wallet_fails_without_network (env : MintEnv)
    (server : ServerMintReq → ServerMintResp) (chainSig : String) (p : MintCNFTParams)
    (htree : optTruthy env.merkleTreeAddress = true)
    (hforce : optBoolTruthy p.forceHelius = false)
    (hpk : env.walletAdapterPublicKey = none)
    (hext : env.windowSolana = none ∨
      ∃ sol, env.windowSolana = some sol ∧ sol.isPhantom = false)
    (hacct : optTruthy env.accountAddress = false) :
    (useMintCNFT env server chainSig p).result =
      Except.error MintError.walletNotConnectedTree ∧
    (useMintCNFT env server chainSig p).calls = [] ∧
    (useMintCNFT env server chainSig p).notification =
      MintNotification.failure (errorToast MintError.walletNotConnectedTree) := by
  have hsel : useExistingTree env p = true := by
    unfold useExistingTree
    rw [htree, hforce]
    rfl
  have hm : mintMutationFn env server chainSig p =
      ([], Except.error MintError.walletNotConnectedTree) := by
    unfold mintMutationFn
    rw [if_pos hsel, hpk]
    rcases hext with hws | ⟨sol, hws, hph⟩
    · rw [hws]
      simp [hacct]
    · rw [hws]
      simp [hph, hacct]
  unfold useMintCNFT
  rw [hm]
  exact ⟨rfl, rfl, rfl⟩

/-- Closed instance of C4 at the scenario-C environment. -/
theorem C4_no_wallet_fails_without_network_witness :
    (useMintCNFT { merkleTreeAddress := some "Tree1" } sampleServerOk "csig"
        { name := "Foo", symbol := "FOO" }).result =
      Except.error MintError.walletNotConnectedTree ∧
    (useMintCNFT { merkleTreeAddress := some "Tree1" } sampleServerOk "csig"
        { name := "Foo", symbol := "FOO" }).calls = [] ∧
    (useMintCNFT { merkleTreeAddress := some "Tree1" } sampleServerOk "csig"
        { name := "Foo", symbol := "FOO" }).notification =
      MintNotification.failure (errorToast MintError.walletNotConnectedTree) :=
  C4_no_wallet_fails_without_network _ sampleServerOk "csig" _
    (by decide) rfl rfl (Or.inl rfl) rfl

/-- Claim C2 is false on the code: with a tree configured and the fallback
forced, the server-signed strategy runs (one mint-proxy call, success with
the asset id from the proxy), yet the success notification is the
user-signed mock-metadata message and does not mention the asset id,
because onSuccess branches on the captured configuredTree flag rather than
on the strategy actually used. -/
theorem C2_counterexample :
    (useMintCNFT { merkleTreeAddress := some "Tree1", accountAddress := some "Owner1" }
        sampleServerOk "csig"
        { name := "Foo", symbol := "FOO", forceHelius := some true }).calls =
      [NetCall.mintProxy
        { name := "Foo", symbol := "FOO", owner := "Owner1",
          description := none, imageUrl := none }] ∧
    (useMintCNFT { merkleTreeAddress := some "Tree1", accountAddress := some "Owner1" }
        sampleServerOk "csig"
        { name := "Foo", symbol := "FOO", forceHelius := some true }).result =
      Except.ok { signature := "sig1", assetId := "id1" } ∧
    (useMintCNFT { merkleTreeAddress := some "Tree1", accountAddress := some "Owner1" }
        sampleServerOk "csig"
        { name := "Foo", symbol := "FOO", forceHelius := some true }).notification =
      MintNotification.success
        { title := "🎉 cNFT Minted Successfully!",
          description := "You signed and paid for this transaction. Note: Using mock metadata URI for testing.",
          duration := 6000 } ∧
    strIncludes
      "You signed and paid for this transaction. Note: Using mock metadata URI for testing."
      "Asset ID" = false :=
  ⟨rfl, rfl, rfl, by decide⟩

/-- Claim C2 (amended): on every successful mint the success notification is
determined by the captured configuredTree flag, not by the strategy actually
used for the attempt: with a configured tree the message is the user-signed
mock-metadata one (even when the server-signed path ran via force-fallback
or the silent re-route), and with no configured tree it carries the first
eight characters of the asset id; two cache invalidations are scheduled. -/
theorem C2_amended_toast_by_configured_tree (env : MintEnv)
    (server : ServerMintReq → ServerMintResp) (chainSig : String) (p : MintCNFTParams)
    (d : MintResult) (h : (mintMutationFn env server chainSig p).2 = Except.ok d) :
    (useMintCNFT env server chainSig p).notification =
      MintNotification.success (successToast (optTruthy env.merkleTreeAddress) d) ∧
    (useMintCNFT env server chainSig p).invalidationDelays = [3000, 10000] ∧
    (optTruthy env.merkleTreeAddress = true →
      (successToast (optTruthy env.merkleTreeAddress) d).description =
        "You signed and paid for this transaction. Note: Using mock metadata URI for testing.") ∧
    (optTruthy env.merkleTreeAddress = false →
      (successToast (optTruthy env.merkleTreeAddress) d).description =
        "Asset ID: " ++ d.assetId.take 8 ++ "...") := by
  unfold useMintCNFT
  dsimp only
  rw [h]
  refine ⟨rfl, rfl, fun hc => ?_, fun hc => ?_⟩
  · simp [successToast, hc]
  · simp [successToast, hc]

/-- Closed instance of the amended C2 at a no-tree environment where the
server-signed path succeeds. -/
theorem C2_amended_toast_by_configured_tree_witness :
    (useMintCNFT { accountAddress := some "Owner1" } sampleServerOk "csig"
        { name := "Foo", symbol := "FOO" }).notification =
      MintNotification.success
        (successToast
          (optTruthy (MintEnv.merkleTreeAddress { accountAddress := some "Owner1" }))
          { signature := "sig1", assetId := "id1" }) ∧
    (useMintCNFT { accountAddress := some "Owner1" } sampleServerOk "csig"
        { name := "Foo", symbol := "FOO" }).invalidationDelays = [3000, 10000] ∧
    (optTruthy (MintEnv.merkleTreeAddress { accountAddress := some "Owner1" }) = true →
      (successToast
        (optTruthy (MintEnv.merkleTreeAddress { accountAddress := some "Owner1" }))
        { signature := "sig1", assetId := "id1" }).description =
        "You signed and paid for this transaction. Note: Using mock metadata URI for testing.") ∧
    (optTruthy (MintEnv.merkleTreeAddress { accountAddress := some "Owner1" }) = false →
      (successToast
        (optTruthy (MintEnv.merkleTreeAddress { accountAddress := some "Owner1" }))
        { signature := "sig1", assetId := "id1" }).description =
        "Asset ID: " ++ String.take "id1" 8 ++ "...") :=
  C2_amended_toast_by_configured_tree _ sampleServerOk "csig"
    { name := "Foo", symbol := "FOO" } _ rfl

/-- Every character code is below the Unicode bound. -/
theorem charToNat_lt (c : Char) : c.toNat < 1114112 := by
  have h1 : c.toNat = c.val.toNat := rfl
  rcases c.valid with h | h <;> omega

/-- The character-code sum of a string is at most its length times the
largest character code. -/
theorem sumCharCodes_le (s : String) : sumCharCodes s ≤ s.length * 1114111 := by
  have h : (s.data.map Char.toNat).sum ≤ (s.data.map Char.toNat).length • 1114111 := by
    apply List.sum_le_card_nsmul
    intro x hx
    simp only [List.mem_map] at hx
    obtain ⟨c, _, rfl⟩ := hx
    have := charToNat_lt c
    omega
  have hlen : (s.data.map Char.toNat).length = s.length := by
    rw [List.length_map]
    rfl
  unfold sumCharCodes
  calc (s.data.map Char.toNat).sum ≤ (s.data.map Char.toNat).length • 1114111 := h
    _ = s.length * 1114111 := by rw [hlen, smul_eq_mul]

/-- A natural number below the k-th power of 36 has at most k base-36
digits. -/
theorem base36Digits_length_le : ∀ (k n : Nat), n < 36 ^ k → (base36Digits n).length ≤ k := by
  intro k
  induction k with
  | zero =>
    intro n h
    rw [pow_zero] at h
    have hn : n = 0 := by omega
    subst hn
    unfold base36Digits
    simp
  | succ k ih =>
    intro n h
    by_cases hn : n = 0
    · unfold base36Digits
      simp [hn]
    · unfold base36Digits
      simp only [hn, dite_false]
      have hdiv : n / 36 < 36 ^ k := by
        rw [Nat.div_lt_iff_lt_mul (by norm_num : (0:Nat) < 36)]
        calc n < 36 ^ (k + 1) := h
          _ = 36 ^ k * 36 := by rw [pow_succ]
      have hlen := ih _ hdiv
      simp only [List.length_append, List.length_cons, List.length_nil]
      omega

/-- The base-36 rendering of a number below the k-th power of 36 has length
at most k, for positive k. -/
theorem toBase36_length_le (n k : Nat) (hk : 0 < k) (h : n < 36 ^ k) :
    (toBase36 n).length ≤ k := by
  unfold toBase36
  by_cases hn : n = 0
  · rw [if_pos hn]
    simpa using hk
  · rw [if_neg hn]
    show (base36Digits n).length ≤ k
    exact base36Digits_length_le k n h

/-- padStart of a string no longer than the target width yields exactly the
target width. -/
theorem padStart_length_of_le (s : String) (len : Nat) (c : Char) (h : s.length ≤ len) :
    (padStart s len c).length = len := by
  unfold padStart
  rw [String.length_append]
  have hrep : (String.mk (List.replicate (len - s.length) c)).length = len - s.length := by
    show (List.replicate (len - s.length) c).length = len - s.length
    exact List.length_replicate _ _
  rw [hrep]
  omega

/-- Claim C8: for every non-empty name of JavaScript-representable length the
metadata stub producer is a pure function of the name (the symbol and the
other fields do not influence the URI), the URI is the fixed Arweave
template around a segment of exactly 43 characters, namely the base-36
character-code sum left-padded with x, and the URI length is at most 200. -/
theorem C8_uploadMetadata_shape (p q : MintCNFTParams)
    (hne : p.name ≠ "") (hlen : p.name.length ≤ 2 ^ 53) (hq : q.name = p.name) :
    uploadMetadata q = uploadMetadata p ∧
    (uploadMetadata p).length ≤ 200 ∧
    ∃ seg, uploadMetadata p = "https://arweave.net/" ++ seg ∧
      seg.length = 43 ∧
      seg = padStart (toBase36 (sumCharCodes p.name)) 43 'x' := by
  have hsum : sumCharCodes p.name < 36 ^ 43 := by
    have h1 := sumCharCodes_le p.name
    have h2 : p.name.length * 1114111 ≤ 2 ^ 53 * 1114111 :=
      Nat.mul_le_mul_right _ hlen
    have h3 : (2:Nat) ^ 53 * 1114111 < 36 ^ 43 := by norm_num
    omega
  have hb : (toBase36 (sumCharCodes p.name)).length ≤ 43 :=
    toBase36_length_le _ 43 (by norm_num) hsum
  have hpad : (padStart (toBase36 (sumCharCodes p.name)) 43 'x').length = 43 :=
    padStart_length_of_le _ _ _ hb
  refine ⟨?_, ?_, ?_⟩
  · unfold uploadMetadata
    rw [hq]
  · unfold uploadMetadata
    dsimp only
    rw [String.length_append, hpad]
    have h20 : ("https://arweave.net/" : String).length = 20 := rfl
    rw [h20]
    omega
  · exact ⟨_, rfl, hpad, rfl⟩

/-- Closed instance of C8: two requests sharing the name Foo yield the same
URI, of the stated shape and length. -/
theorem C8_uploadMetadata_shape_witness :
    uploadMetadata { name := "Foo", symbol := "BAR", description := some "d" } =
      uploadMetadata { name := "Foo", symbol := "FOO" } ∧
    (uploadMetadata { name := "Foo", symbol := "FOO" }).length ≤ 200 ∧
    ∃ seg,
      uploadMetadata { name := "Foo", symbol := "FOO" } = "https://arweave.net/" ++ seg ∧
      seg.length = 43 ∧
      seg = padStart (toBase36 (sumCharCodes
        (MintCNFTParams.name { name := "Foo", symbol := "FOO" }))) 43 'x' :=
  C8_uploadMetadata_shape { name := "Foo", symbol := "FOO" }
    { name := "Foo", symbol := "BAR", description := some "d" }
    (by decide) (by decide) rfl

/-- Closed instance of C1 at a configured-tree environment. -/
theorem C1_strategy_selection_witness :
    (strategyOf { merkleTreeAddress := some "Tree1" } { name := "Foo", symbol := "FOO" } =
        Strategy.userSigned ↔
      optTruthy (MintEnv.merkleTreeAddress { merkleTreeAddress := some "Tree1" }) = true ∧
        optBoolTruthy (MintCNFTParams.forceHelius { name := "Foo", symbol := "FOO" }) = false) ∧
    (strategyOf { merkleTreeAddress := some "Tree1" } { name := "Foo", symbol := "FOO" } ≠
        Strategy.userSigned →
      strategyOf { merkleTreeAddress := some "Tree1" } { name := "Foo", symbol := "FOO" } =
        Strategy.serverSigned) :=
  C1_strategy_selection { merkleTreeAddress := some "Tree1" } { name := "Foo", symbol := "FOO" }

/-- Closed instance of C9 at a configured tree with a connected signing adapter. -/
theorem C9_tree_guard_unreachable_witness :
    isTreeNotConfiguredErr
      (mintMutationFn
        { merkleTreeAddress := some "Tree1"
          walletAdapterPublicKey := some "Pk1"
          walletAdapterCanSign := true }
        sampleServerOk "csig" { name := "Foo", symbol := "FOO" }).2 = false :=
  C9_tree_guard_unreachable
    { merkleTreeAddress := some "Tree1"
      walletAdapterPublicKey := some "Pk1"
      walletAdapterCanSign := true }
    sampleServerOk "csig" { name := "Foo", symbol := "FOO" }

/-- Closed instance of C10: an empty name at the mint proxy and an empty
method at the RPC proxy are both answered 400 without an upstream call, and
identically to the absent-field bodies. -/
theorem C10_empty_string_as_absent_witness :
    (mintProxyPOST { name := some "", symbol := some "FOO", owner := some "Owner1" }
        sampleUpstreamDown).1 = none ∧
    (mintProxyPOST { name := some "", symbol := some "FOO", owner := some "Owner1" }
        sampleUpstreamDown).2.status = 400 ∧
    mintProxyPOST { name := some "", symbol := some "FOO", owner := some "Owner1" }
        sampleUpstreamDown =
      mintProxyPOST { name := none, symbol := some "FOO", owner := some "Owner1" }
        sampleUpstreamDown ∧
    (rpcProxyPOST { method := some "" } sampleRpcUpstream).1 = none ∧
    (rpcProxyPOST { method := some "" } sampleRpcUpstream).2.status = 400 ∧
    rpcProxyPOST { method := some "" } sampleRpcUpstream =
      rpcProxyPOST { method := none } sampleRpcUpstream := by
  have h := C10_empty_string_as_absent
    { name := some "", symbol := some "FOO", owner := some "Owner1" } sampleUpstreamDown
    { method := some "" } sampleRpcUpstream
  obtain ⟨h1, h2⟩ := h
  obtain ⟨a1, a2, a3⟩ := h1 (Or.inl rfl)
  obtain ⟨b1, b2, b3⟩ := h2 rfl
  exact ⟨a1, a2, a3, b1, b2, b3⟩
